import Mathlib

/-!
Verification of the natural-language specification of a Redis-compatible
server (Rust) against a shallow embedding of its source.

Source layout referenced throughout:
  src/main.rs          shared state, connection state machine
  src/resp.rs          wire-protocol codec (Value, parse, write_to)
  src/rdb.rs           snapshot (RDB) reader
  src/command/*.rs     command handlers

Modelling conventions:
  - Rust `String` payloads are Lean `String`; where byte-exact behaviour
    matters (the codec, the snapshot reader) strings are `List Nat` bytes.
  - `DashMap<String, MapValue>` is an association list with first-match
    lookup and in-place-replace insert.
  - `tokio::sync::oneshot::Sender<String>` waiters are modelled by a
    `Bool`: `true` means the receiver is still alive so `send` succeeds,
    `false` means `send` returns the item back (`Err(item)`).
  - `i64`/`usize` arithmetic uses `Int`/`Nat` with explicit wrap
    (`% 2^64`, two's complement for `i64`) where the Rust release build
    wraps; comments mark the places where a debug build would panic.
  - fallible Rust paths (`anyhow::Result`, `todo!()` panics) are `Option`.
-/

set_option maxRecDepth 8192

namespace S2P

/-! ### Reply values — src/resp.rs `enum Value`, handler level.

Variants `Boolean`/`Double`/`BigNumber`/`BulkError`/`VerbatimString`/
`Map`/`Attribute`/`Set`/`Push` are never constructed by any embedded
handler and are omitted from this handler-level model; the byte-level
codec model `Frame` below carries all of them. -/
inductive Value where
  | simpleString (s : String)
  | simpleError (s : String)
  | integer (n : Int)
  | bulkString (s : String)
  | rdb (bytes : List Nat)
  | null
  | array (items : List Value)
  deriving Repr

/-! ### Keyspace — src/main.rs `MapValueContent`, `MapValue`.

`SetEntry.score : f64` is abstracted as its raw bit pattern (a `Nat`);
no embedded operation inspects it. `SystemTime` is milliseconds since
the Unix epoch as a `Nat`. -/
inductive MapValueContent where
  | integer (n : Int)
  | string (s : String)
  | list (items : List String)
  | stream (entries : List ((Nat × Nat) × List String))
  | sortedSet (entries : List (Nat × String))
  deriving Repr

structure MapValue where
  value : MapValueContent
  expiresAt : Option Nat
  deriving Repr

abbrev KeyMap := List (String × MapValue)

def mapLookup (m : KeyMap) (k : String) : Option MapValue :=
  match m with
  | [] => none
  | (k', v) :: rest => if k' = k then some v else mapLookup rest k

def mapInsert (m : KeyMap) (k : String) (v : MapValue) : KeyMap :=
  match m with
  | [] => [(k, v)]
  | (k', v') :: rest => if k' = k then (k, v) :: rest else (k', v') :: mapInsert rest k v

def mapRemove (m : KeyMap) (k : String) : KeyMap :=
  match m with
  | [] => []
  | (k', v') :: rest => if k' = k then rest else (k', v') :: mapRemove rest k

/-! ### C1 — src/command/list.rs `rpush` (lines 7–76).

The waiter-drain loop (lines 23–37 for an existing list, 49–63 for an
absent key) pops the front waiter and the front item; a failed send
(`Err(e)` / `!is_ok()`) returns the item to the front of the list and
the loop continues with the next waiter.  `drainWaiters` returns
(items left in the list, waiters left in the FIFO, items delivered). -/
def drainWaiters : List String → List Bool → List String × List Bool × List String
  | items, [] => (items, [], [])
  | [], w :: ws => ([], w :: ws, [])
  | item :: items, w :: ws =>
    if w then
      let (left, wl, d) := drainWaiters items ws
      (left, wl, item :: d)
    else
      drainWaiters (item :: items) ws

structure PushResult where
  reply : Nat
  map : KeyMap
  waiters : List Bool
  delivered : List String
  deriving Repr

/-- src/command/list.rs `rpush`: the waiter FIFO for `key` is passed as
`waiters` (an absent registry entry and an empty FIFO behave alike).
`none` models the `todo!()` panics on non-list values. -/
def rpush (m : KeyMap) (waiters : List Bool) (key : String) (values : List String) :
    Option PushResult :=
  match mapLookup m key with
  | some mv =>
    match mv.value with
    | .string _ | .integer _ => none
    | .list items =>
      let items2 := items ++ values
      let len := items2.length
      let res := drainWaiters items2 waiters
      some ⟨len, mapInsert m key ⟨.list res.1, mv.expiresAt⟩, res.2.1, res.2.2⟩
    | .stream _ => none
    | .sortedSet _ => none
  | none =>
    let ogLen := values.length
    let res := drainWaiters values waiters
    some ⟨ogLen, mapInsert m key ⟨.list res.1, none⟩, res.2.1, res.2.2⟩

theorem drainWaiters_delivered_append (items : List String) (ws : List Bool) :
    (drainWaiters items ws).2.2 ++ (drainWaiters items ws).1 = items := by
  induction ws generalizing items with
  | nil => cases items <;> simp [drainWaiters]
  | cons w ws ih =>
    cases items with
    | nil => simp [drainWaiters]
    | cons item items =>
      by_cases hw : w = true
      · subst hw
        simpa [drainWaiters] using ih items
      · simp only [Bool.not_eq_true] at hw
        subst hw
        simpa [drainWaiters] using ih (item :: items)

theorem mapLookup_mapInsert_self (m : KeyMap) (k : String) (v : MapValue) :
    mapLookup (mapInsert m k v) k = some v := by
  induction m with
  | nil => simp [mapInsert, mapLookup]
  | cons p rest ih =>
    by_cases h : p.1 = k
    · simp [mapInsert, mapLookup, h]
    · simp [mapInsert, mapLookup, h, ih]

/-- C1 (amended): for every RPUSH on a key with registered list waiters,
each item transferred directly to a waiter is not stored in the list
(delivered ++ stored = old ++ pushed), and the integer reply equals the
length of the list immediately after appending the pushed values and
BEFORE waiter deliveries — for an absent key, the number of values
pushed, not the length that remains after the deliveries. -/
theorem rpush_waiter_delivery (m : KeyMap) (w : List Bool) (k : String)
    (vs : List String) :
    (∀ items e, mapLookup m k = some ⟨.list items, e⟩ →
      ∃ r, rpush m w k vs = some r ∧
        r.reply = items.length + vs.length ∧
        ∃ left, mapLookup r.map k = some ⟨.list left, e⟩ ∧
          r.delivered ++ left = items ++ vs) ∧
    (mapLookup m k = none →
      ∃ r, rpush m w k vs = some r ∧
        r.reply = vs.length ∧
        ∃ left, mapLookup r.map k = some ⟨.list left, none⟩ ∧
          r.delivered ++ left = vs) := by
  constructor
  · intro items e hlook
    refine ⟨⟨(items ++ vs).length,
            mapInsert m k ⟨.list (drainWaiters (items ++ vs) w).1, e⟩,
            (drainWaiters (items ++ vs) w).2.1,
            (drainWaiters (items ++ vs) w).2.2⟩, ?_, ?_, ?_⟩
    · simp [rpush, hlook]
    · simp
    · refine ⟨(drainWaiters (items ++ vs) w).1, ?_, ?_⟩
      · exact mapLookup_mapInsert_self m k _
      · exact drainWaiters_delivered_append (items ++ vs) w
  · intro hlook
    refine ⟨⟨vs.length,
            mapInsert m k ⟨.list (drainWaiters vs w).1, none⟩,
            (drainWaiters vs w).2.1,
            (drainWaiters vs w).2.2⟩, ?_, rfl, ?_⟩
    · simp [rpush, hlook]
    · refine ⟨(drainWaiters vs w).1, ?_, ?_⟩
      · exact mapLookup_mapInsert_self m k _
      · exact drainWaiters_delivered_append vs w

/-- C1 witness: RPUSH of ["v"] onto the present list ["a"] under key "x"
with one live waiter replies 2, delivers "a", and stores ["v"]. -/
theorem rpush_waiter_delivery_witness :
    ∃ r, rpush [("x", ⟨.list ["a"], none⟩)] [true] "x" ["v"] = some r ∧
      r.reply = ["a"].length + ["v"].length ∧
      ∃ left, mapLookup r.map "x" = some ⟨.list left, none⟩ ∧
        r.delivered ++ left = ["a"] ++ ["v"] :=
  (rpush_waiter_delivery [("x", ⟨.list ["a"], none⟩)] [true] "x" ["v"]).1
    ["a"] none rfl

/-- C1 counterexample: with key "x" absent and a single live waiter,
RPUSH x v delivers the item directly (the stored list is empty) but
replies 1 — the operand count before delivery — not 0 as the claim and
the spec's S2 scenario state. -/
theorem rpush_reply_counterexample :
    rpush [] [true] "x" ["v"] =
      some ⟨1, [("x", ⟨.list [], none⟩)], [], ["v"]⟩ ∧ (1 : Nat) ≠ 0 :=
  ⟨rfl, by decide⟩

/-! ### C2 — src/command/stream.rs `xadd` (lines 34–128).

Stream ids are `(ms, seq)` pairs of `u64`; the derived Rust ordering is
lexicographic.  A `BTreeMap<(u64, u64), Vec<String>>` is modelled as a
list of entries sorted strictly by key (`streamSorted`), with
`streamInsert` the ordered insert (replacing on an equal key), and
`range(..bound).next_back()` as filter-then-last. -/
def idLtP (a b : Nat × Nat) : Prop := a.1 < b.1 ∨ (a.1 = b.1 ∧ a.2 < b.2)

instance (a b : Nat × Nat) : Decidable (idLtP a b) := by unfold idLtP; infer_instance

def idLeP (a b : Nat × Nat) : Prop := idLtP a b ∨ a = b

instance (a b : Nat × Nat) : Decidable (idLeP a b) := by unfold idLeP; infer_instance

abbrev StreamEntries := List ((Nat × Nat) × List String)

def streamSorted (s : StreamEntries) : Prop :=
  s.Pairwise (fun x y => idLtP x.1 y.1)

def streamInsert (s : StreamEntries) (id : Nat × Nat) (kv : List String) :
    StreamEntries :=
  match s with
  | [] => [(id, kv)]
  | (k, v) :: rest =>
    if idLtP id k then (id, kv) :: (k, v) :: rest
    else if id = k then (id, kv) :: rest
    else (k, v) :: streamInsert rest id kv

/-- Rust `String::split_once('-')`: split at the first dash. -/
def splitOnceDashAux (acc : List Char) : List Char → Option (String × String)
  | [] => none
  | c :: r => if c = '-' then some (String.mk acc.reverse, String.mk r)
              else splitOnceDashAux (c :: acc) r

def splitOnceDash (s : String) : Option (String × String) :=
  splitOnceDashAux [] s.toList

/-- Rust `str::parse::<u64>()`: optional leading `+`, one or more ASCII
digits, value below 2^64. -/
def parseU64 (s : String) : Option Nat :=
  let cs := s.toList
  let ds := match cs with
    | '+' :: r => r
    | _ => cs
  if ds ≠ [] ∧ ds.all (fun c => '0' ≤ c ∧ c ≤ '9') then
    let v := ds.foldl (fun a c => a * 10 + (c.toNat - 48)) 0
    if v < 2 ^ 64 then some v else none
  else none

/-- stream.rs `id_to_value`. -/
def idToValue (id : Nat × Nat) : Value :=
  .bulkString (toString id.1 ++ "-" ++ toString id.2)

/-- stream.rs lines 41–54: the `ms` part of the id (`nowMs` stands for
`SystemTime::now()` in milliseconds since the epoch). -/
def xaddMillis (nowMs : Nat) (idString : String) : Option Nat :=
  if idString = "*" then some nowMs
  else match splitOnceDash idString with
    | none => none
    | some (msStr, _) => parseU64 msStr

/-- stream.rs lines 56–84: the `seq` part — explicit, or defaulted from
the last entry at `millis` (`range(..(millis + 1, 0)).next_back()`; the
`millis + 1` wraps at 2^64 in a release build).  The source's match on
the key's value has no SortedSet arm (non-exhaustive); modelled `none`
like the `todo!()` arms. -/
def xaddSeq (m : KeyMap) (key idString : String) (millis : Nat) : Option Nat :=
  match splitOnceDash idString with
  | some (_, s) =>
    if s ≠ "*" then parseU64 s
    else match mapLookup m key with
      | some mv =>
        match mv.value with
        | .string _ | .integer _ => none
        | .list _ => none
        | .stream entries =>
          match (entries.filter (fun ent => idLtP ent.1 ((millis + 1) % 2 ^ 64, 0))).getLast? with
          | some last => some (if last.1.1 = millis then last.1.2 + 1 else 0)
          | none => if millis = 0 then some 1 else some 0
        | .sortedSet _ => none
      | none => if millis = 0 then some 1 else some 0
  | none =>
    match mapLookup m key with
    | some mv =>
      match mv.value with
      | .string _ | .integer _ => none
      | .list _ => none
      | .stream entries =>
        match (entries.filter (fun ent => idLtP ent.1 ((millis + 1) % 2 ^ 64, 0))).getLast? with
        | some last => some (if last.1.1 = millis then last.1.2 + 1 else 0)
        | none => if millis = 0 then some 1 else some 0
      | .sortedSet _ => none
    | none => if millis = 0 then some 1 else some 0

/-- stream.rs lines 86–127: the id checks and the insertion.  The
stream-waiter fan-out (lines 117–125) only sends on channels and is not
modelled.  The reply is `Ok(Some(...))` with the (possibly unchanged)
map. -/
def xaddApply (m : KeyMap) (key : String) (id : Nat × Nat) (kvPairs : List String) :
    Option (Value × KeyMap) :=
  if id = (0, 0) then
    some (.simpleError "ERR The ID specified in XADD must be greater than 0-0", m)
  else
    match mapLookup m key with
    | some mv =>
      match mv.value with
      | .string _ | .integer _ => none
      | .list _ => none
      | .stream entries =>
        match entries.getLast? with
        | some last =>
          if idLeP id last.1 then
            some (.simpleError "ERR The ID specified in XADD is equal or smaller than the target stream top item", m)
          else
            some (idToValue id,
              mapInsert m key ⟨.stream (streamInsert entries id kvPairs), mv.expiresAt⟩)
        | none =>
          some (idToValue id,
            mapInsert m key ⟨.stream (streamInsert entries id kvPairs), mv.expiresAt⟩)
      | .sortedSet _ => none
    | none =>
      some (idToValue id, mapInsert m key ⟨.stream [(id, kvPairs)], none⟩)

/-- src/command/stream.rs `xadd`: `assert!(kv_pairs.len() % 2 == 0)`,
then the three stages above in source order. -/
def xadd (m : KeyMap) (nowMs : Nat) (key idString : String) (kvPairs : List String) :
    Option (Value × KeyMap) :=
  if kvPairs.length % 2 ≠ 0 then none
  else match xaddMillis nowMs idString with
    | none => none
    | some millis =>
      match xaddSeq m key idString millis with
      | none => none
      | some seq => xaddApply m key (millis, seq) kvPairs

theorem idLtP_trans {a b c : Nat × Nat} (h1 : idLtP a b) (h2 : idLtP b c) : idLtP a c := by
  unfold idLtP at *
  omega

theorem idLtP_of_not_of_ne {a b : Nat × Nat} (h1 : ¬ idLtP a b) (h2 : a ≠ b) : idLtP b a := by
  rcases a with ⟨a1, a2⟩
  rcases b with ⟨b1, b2⟩
  have h2' : ¬ (a1 = b1 ∧ a2 = b2) := fun hc => h2 (by simp [hc.1, hc.2])
  unfold idLtP at h1 ⊢
  dsimp only at h1 ⊢
  omega

theorem mem_streamInsert {s : StreamEntries} {id : Nat × Nat} {kv : List String}
    {x : (Nat × Nat) × List String} (h : x ∈ streamInsert s id kv) :
    x = (id, kv) ∨ x ∈ s := by
  induction s with
  | nil => simpa [streamInsert] using h
  | cons p rest ih =>
    rcases p with ⟨k, v⟩
    simp only [streamInsert] at h
    split at h
    · rcases List.mem_cons.mp h with rfl | h
      · exact Or.inl rfl
      · exact Or.inr h
    · split at h
      · rcases List.mem_cons.mp h with rfl | h
        · exact Or.inl rfl
        · exact Or.inr (List.mem_cons_of_mem _ h)
      · rcases List.mem_cons.mp h with rfl | h
        · exact Or.inr (List.mem_cons_self _ _)
        · rcases ih h with h | h
          · exact Or.inl h
          · exact Or.inr (List.mem_cons_of_mem _ h)

theorem streamSorted_streamInsert {s : StreamEntries} (id : Nat × Nat)
    (kv : List String) (hs : streamSorted s) :
    streamSorted (streamInsert s id kv) := by
  induction s with
  | nil => simp [streamInsert, streamSorted]
  | cons p rest ih =>
    rcases p with ⟨k, v⟩
    rcases List.pairwise_cons.mp hs with ⟨hk, hrest⟩
    by_cases h1 : idLtP id k
    · simp only [streamInsert, if_pos h1]
      refine List.pairwise_cons.mpr ⟨?_, hs⟩
      intro y hy
      rcases List.mem_cons.mp hy with rfl | hy
      · exact h1
      · exact idLtP_trans h1 (hk y hy)
    · by_cases h2 : id = k
      · simp only [streamInsert, if_neg h1, if_pos h2]
        refine List.pairwise_cons.mpr ⟨?_, hrest⟩
        intro y hy
        simpa [h2] using hk y hy
      · simp only [streamInsert, if_neg h1, if_neg h2]
        refine List.pairwise_cons.mpr ⟨?_, ih hrest⟩
        intro y hy
        rcases mem_streamInsert hy with rfl | hy
        · exact idLtP_of_not_of_ne h1 h2
        · exact hk y hy

/-- C2 (amended): for every XADD with an explicit id other than 0-0 that
is not strictly greater than the stream's current top id, the reply is
exactly `ERR The ID specified in XADD is equal or smaller than the
target stream top item` and the stream is unchanged (id 0-0 is instead
rejected earlier with `ERR The ID specified in XADD must be greater
than 0-0`); and the entries of a stream are strictly increasing under
lexicographic order on (ms, seq). -/
theorem xadd_reject_le_top_and_sorted :
    (∀ (m : KeyMap) (nowMs : Nat) (key idString : String) (kvs : List String)
        (msStr seqStr : String) (ms seq : Nat),
      splitOnceDash idString = some (msStr, seqStr) → seqStr ≠ "*" →
      parseU64 msStr = some ms → parseU64 seqStr = some seq →
      kvs.length % 2 = 0 →
      xadd m nowMs key idString kvs = xaddApply m key (ms, seq) kvs) ∧
    (∀ (m : KeyMap) (key : String) (id : Nat × Nat) (s : StreamEntries)
        (e : Option Nat) (last : (Nat × Nat) × List String) (kvs : List String),
      mapLookup m key = some ⟨.stream s, e⟩ → s.getLast? = some last →
      idLeP id last.1 → id ≠ (0, 0) →
      xaddApply m key id kvs =
        some (.simpleError "ERR The ID specified in XADD is equal or smaller than the target stream top item", m)) ∧
    (∀ (m : KeyMap) (key : String) (id : Nat × Nat) (kvs : List String)
        (v : Value) (m' : KeyMap) (s : StreamEntries) (e : Option Nat),
      mapLookup m key = some ⟨.stream s, e⟩ → streamSorted s →
      xaddApply m key id kvs = some (v, m') →
      ∃ s', mapLookup m' key = some ⟨.stream s', e⟩ ∧ streamSorted s') ∧
    (∀ (m : KeyMap) (key : String) (id : Nat × Nat) (kvs : List String)
        (v : Value) (m' : KeyMap),
      mapLookup m key = none → id ≠ (0, 0) →
      xaddApply m key id kvs = some (v, m') →
      mapLookup m' key = some ⟨.stream [(id, kvs)], none⟩ ∧
        streamSorted [(id, kvs)]) := by
  refine ⟨?_, ?_, ?_, ?_⟩
  · intro m nowMs key idString kvs msStr seqStr ms seq hsplit hstar hms hseq heven
    have hne : idString ≠ "*" := by
      intro h
      rw [h] at hsplit
      simp [splitOnceDash, splitOnceDashAux] at hsplit
    simp [xadd, xaddMillis, xaddSeq, hsplit, hne, hstar, hms, hseq, heven]
  · intro m key id s e last kvs hlook hlast hle hzero
    have hzero' : ¬ id = 0 := by simpa using hzero
    simp [xaddApply, hzero, hzero', hlook, hlast, hle]
  · intro m key id kvs v m' s e hlook hsorted happ
    by_cases hzero : id = (0, 0)
    · simp only [xaddApply, if_pos hzero, Option.some.injEq, Prod.mk.injEq] at happ
      exact ⟨s, happ.2 ▸ hlook, hsorted⟩
    · simp only [xaddApply, if_neg hzero, hlook] at happ
      rcases hgl : s.getLast? with _ | last
      · rw [hgl] at happ
        simp only [Option.some.injEq, Prod.mk.injEq] at happ
        refine ⟨streamInsert s id kvs, ?_, streamSorted_streamInsert id kvs hsorted⟩
        rw [← happ.2]
        exact mapLookup_mapInsert_self m key _
      · rw [hgl] at happ
        by_cases hle : idLeP id last.1
        · simp only [if_pos hle, Option.some.injEq, Prod.mk.injEq] at happ
          exact ⟨s, happ.2 ▸ hlook, hsorted⟩
        · simp only [if_neg hle, Option.some.injEq, Prod.mk.injEq] at happ
          refine ⟨streamInsert s id kvs, ?_, streamSorted_streamInsert id kvs hsorted⟩
          rw [← happ.2]
          exact mapLookup_mapInsert_self m key _
  · intro m key id kvs v m' hlook hzero happ
    simp only [xaddApply, if_neg hzero, hlook, Option.some.injEq, Prod.mk.injEq] at happ
    refine ⟨?_, by simp [streamSorted]⟩
    rw [← happ.2]
    exact mapLookup_mapInsert_self m key _

/-- C2 witness: on the stream [((1,1), [f,v])]: XADD with id string
"2-3" reduces to the apply stage at id (2,3); id (1,1), equal to the
top, is rejected with the stream unchanged; inserting (2,0) keeps the
entries strictly sorted; and an absent key gets a sorted singleton. -/
theorem xadd_reject_le_top_and_sorted_witness :
    (xadd [("s", ⟨.stream [((1, 1), ["f", "v"])], none⟩)] 7 "s" "2-3" ["a", "b"] =
      xaddApply [("s", ⟨.stream [((1, 1), ["f", "v"])], none⟩)] "s" (2, 3) ["a", "b"]) ∧
    (xaddApply [("s", ⟨.stream [((1, 1), ["f", "v"])], none⟩)] "s" (1, 1) ["a", "b"] =
      some (.simpleError "ERR The ID specified in XADD is equal or smaller than the target stream top item",
        [("s", ⟨.stream [((1, 1), ["f", "v"])], none⟩)])) ∧
    (∃ s', mapLookup [("s", ⟨.stream [((1, 1), ["f", "v"]), ((2, 0), ["a", "b"])], none⟩)] "s" =
        some ⟨.stream s', none⟩ ∧ streamSorted s') ∧
    (mapLookup [("t", ⟨.stream [((5, 0), ["a", "b"])], none⟩)] "t" =
        some ⟨.stream [((5, 0), ["a", "b"])], none⟩ ∧ streamSorted [((5, 0), ["a", "b"])]) :=
  ⟨xadd_reject_le_top_and_sorted.1 _ 7 "s" "2-3" ["a", "b"] "2" "3" 2 3 rfl
      (by decide) rfl rfl rfl,
   xadd_reject_le_top_and_sorted.2.1 _ "s" (1, 1) [((1, 1), ["f", "v"])] none
      ((1, 1), ["f", "v"]) ["a", "b"] rfl rfl (by decide) (by decide),
   xadd_reject_le_top_and_sorted.2.2.1 [("s", ⟨.stream [((1, 1), ["f", "v"])], none⟩)]
      "s" (2, 0) ["a", "b"] (idToValue (2, 0))
      [("s", ⟨.stream [((1, 1), ["f", "v"]), ((2, 0), ["a", "b"])], none⟩)]
      [((1, 1), ["f", "v"])] none rfl (by simp [streamSorted]) rfl,
   xadd_reject_le_top_and_sorted.2.2.2 [] "t" (5, 0) ["a", "b"] (idToValue (5, 0))
      [("t", ⟨.stream [((5, 0), ["a", "b"])], none⟩)] rfl (by decide) rfl⟩

/-- C2 counterexample: with the stream top id (1,1), XADD with the
explicit id 0-0 — which is not strictly greater than the top — replies
`ERR The ID specified in XADD must be greater than 0-0`, not the
`equal or smaller` error the claim states. -/
theorem xadd_zero_id_counterexample :
    xadd [("s", ⟨.stream [((1, 1), ["f", "v"])], none⟩)] 0 "s" "0-0" ["f", "v"] =
      some (.simpleError "ERR The ID specified in XADD must be greater than 0-0",
        [("s", ⟨.stream [((1, 1), ["f", "v"])], none⟩)]) ∧
    idLeP (0, 0) (1, 1) ∧
    "ERR The ID specified in XADD must be greater than 0-0" ≠
      "ERR The ID specified in XADD is equal or smaller than the target stream top item" :=
  ⟨rfl, by decide, by decide⟩

/-! ### C3 — src/main.rs `ConnectionState::read_commands` (lines 365–385):
dispatch of one received command when the transaction buffer is present. -/

/-- Rust `char::to_ascii_lowercase`. -/
def asciiLower (c : Char) : Char :=
  if 'A' ≤ c ∧ c ≤ 'Z' then Char.ofNat (c.toNat + 32) else c

/-- Rust `str::eq_ignore_ascii_case`. -/
def eqIgnoreAsciiCase (a b : String) : Bool :=
  a.toList.map asciiLower == b.toList.map asciiLower

inductive TxnStepResult where
  | execute (cmds : List (List String))
  | reply (newTxn : Option (List (List String))) (v : Value)
  deriving Repr

/-- main.rs lines 365–382, the `if let Some(ref mut txn_inner) = self.txn`
branch: EXEC detaches the buffer and runs exactly the buffered commands
(`.execute`); DISCARD clears the buffer and replies OK; anything else —
including a second MULTI — is appended to the buffer and answered QUEUED
without running.  `none` models the panic of `first().expect` (the
caller asserts non-emptiness just above). -/
def txnStep (txnInner : List (List String)) (fullCommand : List String) :
    Option TxnStepResult :=
  match fullCommand with
  | [] => none
  | command :: _ =>
    if eqIgnoreAsciiCase command "exec" then some (.execute txnInner)
    else if eqIgnoreAsciiCase command "discard" then
      some (.reply none (.simpleString "OK"))
    else
      some (.reply (some (txnInner ++ [fullCommand])) (.simpleString "QUEUED"))

/-- C3 (amended): while the transaction buffer is present, exactly the
incoming commands outside {EXEC, DISCARD} (case-insensitively, MULTI
included) are appended to the buffer and answered QUEUED without being
executed, and buffered commands run only at EXEC, which runs exactly
the buffer. -/
theorem txnStep_queues_non_control :
    (∀ (buf : List (List String)) (cmd : String) (rest : List String),
      ¬ eqIgnoreAsciiCase cmd "exec" = true →
      ¬ eqIgnoreAsciiCase cmd "discard" = true →
      txnStep buf (cmd :: rest) =
        some (.reply (some (buf ++ [cmd :: rest])) (.simpleString "QUEUED"))) ∧
    (∀ (buf : List (List String)) (cmd : String) (rest : List String)
        (out : List (List String)),
      txnStep buf (cmd :: rest) = some (.execute out) →
      out = buf ∧ eqIgnoreAsciiCase cmd "exec" = true) := by
  constructor
  · intro buf cmd rest hexec hdiscard
    simp [txnStep, hexec, hdiscard]
  · intro buf cmd rest out h
    by_cases hexec : eqIgnoreAsciiCase cmd "exec" = true
    · simp only [txnStep, if_pos hexec, Option.some.injEq] at h
      cases h
      exact ⟨rfl, hexec⟩
    · by_cases hdiscard : eqIgnoreAsciiCase cmd "discard" = true
      · simp [txnStep, hexec, hdiscard] at h
      · simp [txnStep, hexec, hdiscard] at h

/-- C3 witness: with buffer [[GET, x]], the command [SET, k, v] is
queued (buffer grows, reply QUEUED), and [EXEC] runs exactly the
buffered commands. -/
theorem txnStep_queues_non_control_witness :
    txnStep [["GET", "x"]] ["SET", "k", "v"] =
      some (.reply (some ([["GET", "x"]] ++ [["SET", "k", "v"]]))
        (.simpleString "QUEUED")) ∧
    ([["GET", "x"]] = [["GET", "x"]] ∧ eqIgnoreAsciiCase "EXEC" "exec" = true) :=
  ⟨txnStep_queues_non_control.1 [["GET", "x"]] "SET" ["k", "v"]
      (by decide) (by decide),
   txnStep_queues_non_control.2 [["GET", "x"]] "EXEC" [] [["GET", "x"]] rfl⟩

/-- C3 counterexample: with an active (empty) transaction buffer, a
second MULTI IS appended to the buffer and answered QUEUED — only EXEC
and DISCARD are excluded — contradicting the claim that MULTI is
neither appended nor answered QUEUED. -/
theorem txnStep_multi_queued_counterexample :
    txnStep [] ["MULTI"] =
      some (.reply (some [["MULTI"]]) (.simpleString "QUEUED")) := rfl

/-! ### C7 — src/command/transaction.rs `incr` (lines 7–41). -/

/-- Two's-complement wrap of an `i64` value: the behaviour of
`*val += 1` in a Rust release build (a debug build panics instead). -/
def wrapI64 (n : Int) : Int := (n + 2 ^ 63) % 2 ^ 64 - 2 ^ 63

/-- src/command/transaction.rs `incr`: Integer values are incremented
unconditionally (no overflow check); every other value kind replies
`ERR value is not an integer or out of range`; an absent key is created
as Integer(1). -/
def incr (m : KeyMap) (args : List String) : Option (Value × KeyMap) :=
  match args with
  | [] => none
  | key :: _ =>
    match mapLookup m key with
    | some mv =>
      match mv.value with
      | .integer val =>
        let v2 := wrapI64 (val + 1)
        some (.integer v2, mapInsert m key ⟨.integer v2, mv.expiresAt⟩)
      | .string _ | .list _ | .stream _ | .sortedSet _ =>
        some (.simpleError "ERR value is not an integer or out of range", m)
    | none => some (.integer 1, mapInsert m key ⟨.integer 1, none⟩)

/-- C7: INCR on a key holding Integer i64::MAX does NOT reply the
claimed overflow error; the release build wraps the value to i64::MIN
and replies that wrapped integer (a debug build aborts), and the stored
value changes. -/
theorem incr_overflow_wraps :
    incr [("k", ⟨.integer 9223372036854775807, none⟩)] ["k"] =
      some (.integer (-9223372036854775808),
        [("k", ⟨.integer (-9223372036854775808), none⟩)]) := by
  rfl

/-! ### C6 — src/command/mod.rs `get` (lines 328–359). -/

/-- `expires_at.is_none_or(|e| SystemTime::now() < e)` with times in
milliseconds since the epoch. -/
def liveAt (e : Option Nat) (nowMs : Nat) : Bool :=
  match e with
  | none => true
  | some t => decide (nowMs < t)

/-- src/command/mod.rs `get`: Integer coerces to its decimal text,
String returns itself, List and Stream return Null; an expired entry is
removed and Null returned; an absent key returns Null.  The source's
match has no SortedSet arm (non-exhaustive); that case is `none`.
`none` also models the `args[0]` index panic on empty args. -/
def get (m : KeyMap) (nowMs : Nat) (args : List String) : Option (Value × KeyMap) :=
  match args with
  | [] => none
  | key :: _ =>
    match mapLookup m key with
    | some mv =>
      if liveAt mv.expiresAt nowMs then
        match mv.value with
        | .integer n => some (.bulkString (toString n), m)
        | .string s => some (.bulkString s, m)
        | .list _ => some (.null, m)
        | .stream _ => some (.null, m)
        | .sortedSet _ => none
      else some (.null, mapRemove m key)
    | none => some (.null, m)

/-- C6 (amended): GET on a key holding a list or a stream replies null
(there is no WRONGTYPE path in the source's `get`, and its match has no
sorted-set arm at all); GET on an absent key replies null; GET on an
Integer value replies its decimal text; an expired entry is removed and
null returned. -/
theorem get_list_stream_null :
    (∀ (m : KeyMap) (now : Nat) (k : String) (rest : List String)
        (items : List String) (e : Option Nat),
      mapLookup m k = some ⟨.list items, e⟩ → liveAt e now = true →
      get m now (k :: rest) = some (.null, m)) ∧
    (∀ (m : KeyMap) (now : Nat) (k : String) (rest : List String)
        (s : StreamEntries) (e : Option Nat),
      mapLookup m k = some ⟨.stream s, e⟩ → liveAt e now = true →
      get m now (k :: rest) = some (.null, m)) ∧
    (∀ (m : KeyMap) (now : Nat) (k : String) (rest : List String),
      mapLookup m k = none → get m now (k :: rest) = some (.null, m)) ∧
    (∀ (m : KeyMap) (now : Nat) (k : String) (rest : List String)
        (n : Int) (e : Option Nat),
      mapLookup m k = some ⟨.integer n, e⟩ → liveAt e now = true →
      get m now (k :: rest) = some (.bulkString (toString n), m)) ∧
    (∀ (m : KeyMap) (now : Nat) (k : String) (rest : List String) (mv : MapValue),
      mapLookup m k = some mv → liveAt mv.expiresAt now = false →
      get m now (k :: rest) = some (.null, mapRemove m k)) := by
  refine ⟨?_, ?_, ?_, ?_, ?_⟩
  · intro m now k rest items e hlook hlive
    simp [get, hlook, hlive]
  · intro m now k rest s e hlook hlive
    simp [get, hlook, hlive]
  · intro m now k rest hlook
    simp [get, hlook]
  · intro m now k rest n e hlook hlive
    simp [get, hlook, hlive]
  · intro m now k rest mv hlook hdead
    simp [get, hlook, hdead]

/-- C6 witness: GET on a live list, a live stream, an absent key, a live
Integer, and an expired String. -/
theorem get_list_stream_null_witness :
    get [("k", ⟨.list ["a"], none⟩)] 0 ["k"] =
      some (.null, [("k", ⟨.list ["a"], none⟩)]) ∧
    get [("k", ⟨.stream [((1, 1), ["f", "v"])], none⟩)] 0 ["k"] =
      some (.null, [("k", ⟨.stream [((1, 1), ["f", "v"])], none⟩)]) ∧
    get [] 0 ["k"] = some (.null, []) ∧
    get [("k", ⟨.integer 42, none⟩)] 0 ["k"] =
      some (.bulkString (toString (42 : Int)), [("k", ⟨.integer 42, none⟩)]) ∧
    get [("k", ⟨.string "v", some 5⟩)] 9 ["k"] = some (.null, []) :=
  ⟨get_list_stream_null.1 [("k", ⟨.list ["a"], none⟩)] 0 "k" [] ["a"] none rfl rfl,
   get_list_stream_null.2.1 [("k", ⟨.stream [((1, 1), ["f", "v"])], none⟩)] 0 "k" []
      [((1, 1), ["f", "v"])] none rfl rfl,
   get_list_stream_null.2.2.1 [] 0 "k" [] rfl,
   get_list_stream_null.2.2.2.1 [("k", ⟨.integer 42, none⟩)] 0 "k" [] 42 none rfl rfl,
   get_list_stream_null.2.2.2.2 [("k", ⟨.string "v", some 5⟩)] 9 "k" []
      ⟨.string "v", some 5⟩ rfl rfl⟩

/-- C6 counterexample: GET on a key holding a list replies null, not the
WRONGTYPE error the claim (via the spec's §9 fix) states. -/
theorem get_wrongtype_counterexample :
    get [("k", ⟨.list ["a"], none⟩)] 0 ["k"] =
      some (.null, [("k", ⟨.list ["a"], none⟩)]) ∧
    Value.null ≠
      Value.simpleError "WRONGTYPE Operation against a key holding the wrong kind of value" :=
  ⟨rfl, fun h => nomatch h⟩

/-! ### C8 — src/command/mod.rs `Command` (lines 20–96) and
`Command::execute` (lines 205–296). -/

inductive Command where
  | ping | echo | set | get
  | rpush | lpush | lrange | llen | lpop | blpop
  | ty | xadd | xrange | xread
  | incr | multi | exec | discard
  | info | replconf | psync
  | config | keys
  | subscribe
  deriving Repr, DecidableEq

/-- Rust `s.to_lowercase()` restricted to ASCII (every embedded theorem
instantiates it on ASCII strings, where the two coincide). -/
def toLowerAscii (s : String) : String :=
  String.mk (s.toList.map asciiLower)

/-- mod.rs `impl FromStr for Command` (lines 54–96): the table of the
23 recognized command names; anything else is `Err` — there is no
UNSUBSCRIBE, QUIT, RESET, PUBLISH, ZADD, ZRANK or ZRANGE entry. -/
def Command.fromStr (s : String) : Option Command :=
  match toLowerAscii s with
  | "ping" => some .ping
  | "echo" => some .echo
  | "set" => some .set
  | "get" => some .get
  | "rpush" => some .rpush
  | "lpush" => some .lpush
  | "lrange" => some .lrange
  | "llen" => some .llen
  | "lpop" => some .lpop
  | "blpop" => some .blpop
  | "type" => some .ty
  | "xadd" => some .xadd
  | "xrange" => some .xrange
  | "xread" => some .xread
  | "incr" => some .incr
  | "multi" => some .multi
  | "exec" => some .exec
  | "discard" => some .discard
  | "info" => some .info
  | "replconf" => some .replconf
  | "psync" => some .psync
  | "config" => some .config
  | "keys" => some .keys
  | "subscribe" => some .subscribe
  | _ => none

/-- mod.rs `Command::to_str` (lines 105–138), also the `Display` used to
format the subscription-gating error. -/
def Command.toStr : Command → String
  | .ping => "PING"
  | .echo => "ECHO"
  | .set => "SET"
  | .get => "GET"
  | .rpush => "RPUSH"
  | .lpush => "LPUSH"
  | .lrange => "LRANGE"
  | .llen => "LLEN"
  | .lpop => "LPOP"
  | .blpop => "BLPOP"
  | .ty => "TYPE"
  | .xadd => "XADD"
  | .xrange => "XRANGE"
  | .xread => "XREAD"
  | .incr => "INCR"
  | .multi => "MULTI"
  | .exec => "EXEC"
  | .discard => "DISCARD"
  | .info => "INFO"
  | .replconf => "REPLCONF"
  | .psync => "PSYNC"
  | .config => "CONFIG"
  | .keys => "KEYS"
  | .subscribe => "SUBSCRIBE"

inductive ConnectionMode where
  | normal | subscribed
  deriving Repr, DecidableEq

/-- Names of the handler functions `Command::execute` delegates to. -/
inductive Handler where
  | set | get | rpush | lpush | lrange | llen | lpop | blpop
  | ty | xadd | xrange | xread | incr | info | replconf | psync
  | config | keys | subscribe
  deriving Repr, DecidableEq

inductive DispatchResult where
  | runHandler (h : Handler)
  | immediate (v : Value)
  | beginMulti (v : Value)
  deriving Repr

/-- mod.rs `Command::execute` (lines 205–296): its `match (self,
conn_state.mode)` as a control-flow skeleton — each arm either
delegates to a named handler (`runHandler`), replies inline
(`immediate`), or initializes the transaction buffer and replies OK
(`beginMulti`, the MULTI arm).  Arms appear in source order; in
Subscribed mode only the `(Subscribe, Normal | Subscribed)` and
`(Ping, Subscribed)` arms precede the catch-all gating error. -/
def Command.dispatch (cmd : Command) (mode : ConnectionMode) (args : List String) :
    DispatchResult :=
  match cmd, mode with
  | .ping, .normal => .immediate (.simpleString "PONG")
  | .echo, .normal => .immediate (.bulkString (args.headD ""))
  | .set, .normal => .runHandler .set
  | .get, .normal => .runHandler .get
  | .rpush, .normal => .runHandler .rpush
  | .lpush, .normal => .runHandler .lpush
  | .lrange, .normal => .runHandler .lrange
  | .llen, .normal => .runHandler .llen
  | .lpop, .normal => .runHandler .lpop
  | .blpop, .normal => .runHandler .blpop
  | .ty, .normal => .runHandler .ty
  | .xadd, .normal => .runHandler .xadd
  | .xrange, .normal => .runHandler .xrange
  | .xread, .normal => .runHandler .xread
  | .incr, .normal => .runHandler .incr
  | .multi, .normal => .beginMulti (.simpleString "OK")
  | .exec, .normal => .immediate (.simpleError "ERR EXEC without MULTI")
  | .discard, .normal => .immediate (.simpleError "ERR DISCARD without MULTI")
  | .info, .normal => .runHandler .info
  | .replconf, .normal => .runHandler .replconf
  | .psync, .normal => .runHandler .psync
  | .config, .normal => .runHandler .config
  | .keys, .normal => .runHandler .keys
  | .subscribe, _ => .runHandler .subscribe
  | .ping, .subscribed => .immediate (.array [.bulkString "pong", .bulkString ""])
  | c, .subscribed =>
    .immediate (.simpleError ("ERR Can't execute '" ++ c.toStr ++
      "': only (P|S)SUBSCRIBE / (P|S)UNSUBSCRIBE / PING / QUIT / RESET are allowed in this context"))

/-- C8 (amended): while Subscribed, SUBSCRIBE is delegated to its
handler and PING answered with the two-element array [pong, ""]; every
OTHER RECOGNIZED command is answered inline with the gating error
naming the command, without reaching its handler.  UNSUBSCRIBE, QUIT
and RESET are not recognized commands at all (settled by the
counterexample), so they are not "accepted" as the claim states. -/
theorem dispatch_subscribed_gating :
    (∀ args, Command.dispatch .subscribe .subscribed args = .runHandler .subscribe) ∧
    (∀ args, Command.dispatch .ping .subscribed args =
      .immediate (.array [.bulkString "pong", .bulkString ""])) ∧
    (∀ (cmd : Command) (args : List String), cmd ≠ .subscribe → cmd ≠ .ping →
      Command.dispatch cmd .subscribed args =
        .immediate (.simpleError ("ERR Can't execute '" ++ cmd.toStr ++
          "': only (P|S)SUBSCRIBE / (P|S)UNSUBSCRIBE / PING / QUIT / RESET are allowed in this context"))) := by
  refine ⟨fun _ => rfl, fun _ => rfl, ?_⟩
  intro cmd args h1 h2
  cases cmd <;> first
    | exact absurd rfl h1
    | exact absurd rfl h2
    | rfl

/-- C8 witness: GET in Subscribed mode is answered with the gating
error naming GET. -/
theorem dispatch_subscribed_gating_witness :
    Command.dispatch .get .subscribed ["x"] =
      .immediate (.simpleError ("ERR Can't execute '" ++ Command.toStr .get ++
        "': only (P|S)SUBSCRIBE / (P|S)UNSUBSCRIBE / PING / QUIT / RESET are allowed in this context")) :=
  dispatch_subscribed_gating.2.2 .get ["x"] (by decide) (by decide)

/-- C8 counterexample: UNSUBSCRIBE, QUIT and RESET are not in the
command table at all — parsing them fails (`bail!("unknown command")`),
so a Subscribed connection cannot "accept" them as the claim states. -/
theorem dispatch_unknown_counterexample :
    Command.fromStr "UNSUBSCRIBE" = none ∧
    Command.fromStr "QUIT" = none ∧
    Command.fromStr "RESET" = none ∧
    Command.fromStr "SUBSCRIBE" = some .subscribe ∧
    Command.fromStr "PING" = some .ping :=
  ⟨rfl, rfl, rfl, rfl, rfl⟩

/-! ### C9 — src/command/list.rs `lrange` (lines 152–199). -/

/-- Rust `usize::saturating_add_signed` for a list length: clamps at 0
(the upper clamp at `usize::MAX` is unreachable for in-memory lists). -/
def satAddSigned (len : Nat) (i : Int) : Nat := (len + i).toNat

/-- list.rs lines 168–172: normalize `start_index`. -/
def normStart (len : Nat) (i : Int) : Nat :=
  if i < 0 then satAddSigned len i else i.toNat

/-- list.rs lines 174–180: normalize `end_index`.  In the
`end_index as usize >= items.len()` branch the source computes
`items.len() - 1` in `usize`: on an empty list this wraps modulo 2^64
in a release build (a debug build panics there). -/
def normEnd (len : Nat) (i : Int) : Nat :=
  if i < 0 then satAddSigned len i
  else if (len : Int) ≤ i then (len + (2 ^ 64 - 1)) % 2 ^ 64
  else i.toNat

/-- list.rs lines 182–189: the emptiness test and the inclusive slice
`items.range(start_index..=end_index)` mapped to bulk strings. -/
def lrangeCore (items : List String) (s e : Nat) : Value :=
  if s > e ∨ s ≥ items.length then .array []
  else .array (((items.drop s).take (e + 1 - s)).map .bulkString)

/-- src/command/list.rs `lrange` on a stored list, after the two index
arguments have been parsed to `isize`. -/
def lrangeList (items : List String) (startIndex endIndex : Int) : Value :=
  lrangeCore items (normStart items.length startIndex) (normEnd items.length endIndex)

/-- src/command/list.rs `lrange`: key lookup; `todo!()` on non-list
values is `none`; an absent key returns the empty array. -/
def lrange (m : KeyMap) (key : String) (startIndex endIndex : Int) : Option Value :=
  match mapLookup m key with
  | some mv =>
    match mv.value with
    | .string _ | .integer _ => none
    | .list items => some (lrangeList items startIndex endIndex)
    | .stream _ => none
    | .sortedSet _ => none
  | none => some (.array [])

/-- C9: LRANGE normalizes negative indices from the tail, clamps end to
len-1, and returns the empty array whenever start > end after
normalization or start ≥ len; on a present-but-empty list it returns
the empty array for ALL integer indices (release-build semantics: the
usize wrap of `len - 1` is caught by the `start >= len` test); within
range it returns the inclusive slice as bulk strings. -/
theorem lrange_normalization :
    (∀ s e : Int, lrangeList [] s e = .array []) ∧
    (∀ (items : List String) (s e : Int), 0 ≤ s → 0 ≤ e → e < s →
      lrangeList items s e = .array []) ∧
    (∀ (items : List String) (s e : Int), 0 ≤ s → (items.length : Int) ≤ s →
      lrangeList items s e = .array []) ∧
    (∀ (items : List String) (s e : Int), -(items.length : Int) ≤ s → s < 0 →
      lrangeList items s e = lrangeList items (s + items.length) e) ∧
    (∀ (items : List String) (s e : Int), -(items.length : Int) ≤ e → e < 0 →
      lrangeList items s e = lrangeList items s (e + items.length)) ∧
    (∀ (items : List String) (s e : Int), items.length < 2 ^ 64 →
      (items.length : Int) ≤ e →
      lrangeList items s e = lrangeList items s ((items.length : Int) - 1)) ∧
    (∀ (items : List String) (s e : Nat), s ≤ e → e < items.length →
      lrangeList items s e =
        .array (((items.drop s).take (e + 1 - s)).map .bulkString)) := by
  refine ⟨?_, ?_, ?_, ?_, ?_, ?_, ?_⟩
  · intro s e
    unfold lrangeList lrangeCore
    rw [if_pos (Or.inr (by simp))]
  · intro items s e hs he hlt
    have h1 : normStart items.length s = s.toNat := by
      unfold normStart
      rw [if_neg (by omega)]
    by_cases hbig : (items.length : Int) ≤ e
    · unfold lrangeList lrangeCore
      rw [h1, if_pos (Or.inr (by omega))]
    · have h2 : normEnd items.length e = e.toNat := by
        unfold normEnd
        rw [if_neg (by omega), if_neg hbig]
      unfold lrangeList lrangeCore
      rw [h1, h2, if_pos (Or.inl (by omega))]
  · intro items s e hs hlen
    have h1 : normStart items.length s = s.toNat := by
      unfold normStart
      rw [if_neg (by omega)]
    unfold lrangeList lrangeCore
    rw [h1, if_pos (Or.inr (by omega))]
  · intro items s e hge hneg
    unfold lrangeList
    congr 1
    unfold normStart satAddSigned
    rw [if_pos hneg, if_neg (by omega)]
    omega
  · intro items s e hge hneg
    unfold lrangeList
    congr 1
    unfold normEnd satAddSigned
    rw [if_pos hneg, if_neg (by omega), if_neg (by omega)]
    omega
  · intro items s e hsmall hbig
    by_cases hzero : items.length = 0
    · unfold lrangeList lrangeCore
      rw [if_pos (Or.inr (by omega)), if_pos (Or.inr (by omega))]
    · unfold lrangeList
      congr 1
      unfold normEnd satAddSigned
      rw [if_neg (by omega), if_pos hbig, if_neg (by omega), if_neg (by omega)]
      omega
  · intro items s e hse hlen
    have h1 : normStart items.length (s : Int) = s := by
      unfold normStart
      rw [if_neg (by omega)]
      omega
    have h2 : normEnd items.length (e : Int) = e := by
      unfold normEnd
      rw [if_neg (by omega), if_neg (by omega)]
      omega
    unfold lrangeList lrangeCore
    rw [h1, h2, if_neg (by omega)]

/-- C9 witness: on the list [a, b, c]: LRANGE of the empty list with
indices (0, -1); 2 > 1 gives empty; start 3 ≥ len gives empty; -2
normalizes to 1; end -1 normalizes to 2; end 9 clamps to 2; and the
slice [1, 2] returns [b, c]. -/
theorem lrange_normalization_witness :
    lrangeList [] 0 (-1) = .array [] ∧
    lrangeList ["a", "b", "c"] 2 1 = .array [] ∧
    lrangeList ["a", "b", "c"] 3 9 = .array [] ∧
    lrangeList ["a", "b", "c"] (-2) 2 = lrangeList ["a", "b", "c"] (-2 + 3) 2 ∧
    lrangeList ["a", "b", "c"] 0 (-1) = lrangeList ["a", "b", "c"] 0 (-1 + 3) ∧
    lrangeList ["a", "b", "c"] 0 9 = lrangeList ["a", "b", "c"] 0 (3 - 1) ∧
    lrangeList ["a", "b", "c"] 1 2 =
      .array ((((["a", "b", "c"].drop 1)).take (2 + 1 - 1)).map .bulkString) :=
  ⟨lrange_normalization.1 0 (-1),
   lrange_normalization.2.1 ["a", "b", "c"] 2 1 (by decide) (by decide) (by decide),
   lrange_normalization.2.2.1 ["a", "b", "c"] 3 9 (by decide) (by decide),
   lrange_normalization.2.2.2.1 ["a", "b", "c"] (-2) 2 (by decide) (by decide),
   lrange_normalization.2.2.2.2.1 ["a", "b", "c"] 0 (-1) (by decide) (by decide),
   lrange_normalization.2.2.2.2.2.1 ["a", "b", "c"] 0 9 (by norm_num) (by decide),
   lrange_normalization.2.2.2.2.2.2 ["a", "b", "c"] 1 2 (by decide) (by decide)⟩

/-! ### C10 — src/command/replication.rs `psync` (lines 61–86). -/

/-- The server-state fields `psync` touches (src/main.rs `State`);
outbox handles (`mpsc::UnboundedSender<Value>`) are opaque ids. -/
structure ServerState where
  map : KeyMap
  replicationId : String
  replicationOffset : Nat
  replicas : List Nat
  deriving Repr

/-- Modelled from the spec: the bytes of `src/empty.rdb`, the
compile-time constant embedded with `include_bytes!("./empty.rdb")`;
the binary file itself is not among the sources.  Per §4.2 an empty
database snapshot is the 9-byte magic `REDIS0011` followed by the EOF
tag 0xFF; only the payload's constancy matters to the claim. -/
def emptyRdbBytes : List Nat :=
  [82, 69, 68, 73, 83, 48, 48, 49, 49, 0xFF]

structure PsyncResult where
  state : ServerState
  sent : List Value
  reply : Value
  deriving Repr

/-- src/command/replication.rs `psync`: exactly two args required (else
`bail!`); `ensure!` they are "?" and "-1"; the caller's outbox `tx` is
appended to the replica registry; `FULLRESYNC <replid> <offset>` is
sent through `tx` (the send on the caller's own outbox is modelled as
succeeding); the return value is the raw snapshot payload
`Value::Rdb(include_bytes!("./empty.rdb"))`. -/
def psync (st : ServerState) (args : List String) (tx : Nat) : Option PsyncResult :=
  match args with
  | [replicationId, replicationOffset] =>
    if replicationId = "?" ∧ replicationOffset = "-1" then
      some { state := { st with replicas := st.replicas ++ [tx] },
             sent := [.simpleString ("FULLRESYNC " ++ st.replicationId ++ " " ++
               toString st.replicationOffset)],
             reply := .rdb emptyRdbBytes }
    else none
  | _ => none

/-- C10: PSYNC ? -1 registers the caller as a replica, sends
FULLRESYNC replid offset, and replies the raw snapshot payload — the
compile-time constant empty database, identical for every server state
(it never reflects the keyspace). -/
theorem psync_constant_empty_payload :
    (∀ (st : ServerState) (tx : Nat),
      psync st ["?", "-1"] tx =
        some { state := { st with replicas := st.replicas ++ [tx] },
               sent := [.simpleString ("FULLRESYNC " ++ st.replicationId ++ " " ++
                 toString st.replicationOffset)],
               reply := .rdb emptyRdbBytes }) ∧
    (∀ (st1 st2 : ServerState) (tx1 tx2 : Nat) (r1 r2 : PsyncResult),
      psync st1 ["?", "-1"] tx1 = some r1 → psync st2 ["?", "-1"] tx2 = some r2 →
      r1.reply = r2.reply) := by
  constructor
  · intro st tx
    rfl
  · intro st1 st2 tx1 tx2 r1 r2 h1 h2
    simp only [psync, eq_self_iff_true, and_self, if_true,
      Option.some.injEq] at h1 h2
    rw [← h1, ← h2]

/-- C10 witness: two servers with different keyspaces send the same
constant snapshot payload, and the caller is registered. -/
theorem psync_constant_empty_payload_witness :
    psync ⟨[("k", ⟨.string "v", none⟩)], "replid", 42, [7]⟩ ["?", "-1"] 5 =
      some { state := ⟨[("k", ⟨.string "v", none⟩)], "replid", 42, [7] ++ [5]⟩,
             sent := [.simpleString ("FULLRESYNC " ++ "replid" ++ " " ++ toString 42)],
             reply := .rdb emptyRdbBytes } ∧
    (PsyncResult.mk ⟨[("k", ⟨.string "v", none⟩)], "replid", 42, [7, 5]⟩
        [.simpleString ("FULLRESYNC " ++ "replid" ++ " " ++ toString 42)]
        (.rdb emptyRdbBytes)).reply =
      (PsyncResult.mk ⟨[], "other", 0, [6]⟩
        [.simpleString ("FULLRESYNC " ++ "other" ++ " " ++ toString 0)]
        (.rdb emptyRdbBytes)).reply :=
  ⟨psync_constant_empty_payload.1 ⟨[("k", ⟨.string "v", none⟩)], "replid", 42, [7]⟩ 5,
   psync_constant_empty_payload.2 ⟨[("k", ⟨.string "v", none⟩)], "replid", 42, [7]⟩
      ⟨[], "other", 0, []⟩ 5 6 _ _ rfl rfl⟩

/-! ### Byte-stream helpers shared by the codec (src/resp.rs) and the
snapshot reader (src/rdb.rs).  A byte stream is a `List Nat` of values
0..255; each reader returns what it read and the remaining stream, with
`none` for an I/O error (EOF). -/

/-- `read_u8`. -/
def readU8 : List Nat → Option (Nat × List Nat)
  | [] => none
  | b :: rest => some (b, rest)

/-- `read_exact` into a buffer of length `n`. -/
def readExact (n : Nat) (bs : List Nat) : Option (List Nat × List Nat) :=
  if n ≤ bs.length then some (bs.take n, bs.drop n) else none

/-- `read_u32_le`. -/
def readU32LE (bs : List Nat) : Option (Nat × List Nat) :=
  match bs with
  | b0 :: b1 :: b2 :: b3 :: rest =>
    some (b0 + 256 * (b1 + 256 * (b2 + 256 * b3)), rest)
  | _ => none

/-- `read_u64_le`. -/
def readU64LE (bs : List Nat) : Option (Nat × List Nat) :=
  match bs with
  | b0 :: b1 :: b2 :: b3 :: b4 :: b5 :: b6 :: b7 :: rest =>
    some (b0 + 256 * (b1 + 256 * (b2 + 256 * (b3 + 256 *
      (b4 + 256 * (b5 + 256 * (b6 + 256 * b7)))))), rest)
  | _ => none

/-- Two's-complement reading of a `w`-bit little-endian value. -/
def toSigned (w : Nat) (v : Nat) : Int :=
  if v < 2 ^ (w - 1) then (v : Int) else (v : Int) - 2 ^ w

/-- A UTF-8 continuation byte. -/
def isCont (b : Nat) : Bool := decide (0x80 ≤ b ∧ b ≤ 0xBF)

/-- Rust `str::from_utf8` validity (RFC 3629 well-formed UTF-8). -/
def validUtf8 : List Nat → Bool
  | [] => true
  | b :: rest =>
    if b < 0x80 then validUtf8 rest
    else if 0xC2 ≤ b ∧ b ≤ 0xDF then
      match rest with
      | c1 :: r => isCont c1 && validUtf8 r
      | [] => false
    else if b = 0xE0 then
      match rest with
      | c1 :: c2 :: r => decide (0xA0 ≤ c1 ∧ c1 ≤ 0xBF) && isCont c2 && validUtf8 r
      | _ => false
    else if (0xE1 ≤ b ∧ b ≤ 0xEC) ∨ b = 0xEE ∨ b = 0xEF then
      match rest with
      | c1 :: c2 :: r => isCont c1 && isCont c2 && validUtf8 r
      | _ => false
    else if b = 0xED then
      match rest with
      | c1 :: c2 :: r => decide (0x80 ≤ c1 ∧ c1 ≤ 0x9F) && isCont c2 && validUtf8 r
      | _ => false
    else if b = 0xF0 then
      match rest with
      | c1 :: c2 :: c3 :: r =>
        decide (0x90 ≤ c1 ∧ c1 ≤ 0xBF) && isCont c2 && isCont c3 && validUtf8 r
      | _ => false
    else if 0xF1 ≤ b ∧ b ≤ 0xF3 then
      match rest with
      | c1 :: c2 :: c3 :: r => isCont c1 && isCont c2 && isCont c3 && validUtf8 r
      | _ => false
    else if b = 0xF4 then
      match rest with
      | c1 :: c2 :: c3 :: r =>
        decide (0x80 ≤ c1 ∧ c1 ≤ 0x8F) && isCont c2 && isCont c3 && validUtf8 r
      | _ => false
    else false

/-! ### C5 — src/rdb.rs (lines 11–232).  File strings are byte lists;
`SystemTime` values are milliseconds since the Unix epoch. -/

inductive DecodedValue where
  | bytes (bs : List Nat)
  | str (bs : List Nat)
  | i8 (n : Int)
  | i16 (n : Int)
  | i32 (n : Int)
  deriving Repr

/-- rdb.rs `read_string_encoded` lines 67–77: read the payload and
prefer UTF-8 (`DecodedValue::String`) over raw bytes. -/
def readStringPayload (n : Nat) (bs : List Nat) : Option (DecodedValue × List Nat) :=
  match readExact n bs with
  | some (buf, rest) =>
    some (if validUtf8 buf then .str buf else .bytes buf, rest)
  | none => none

/-- rdb.rs `read_string_encoded` (lines 32–78): two-bit length prefix
`00` 6-bit, `01` 14-bit (low bits ++ second byte LE), `10` u32 LE,
`11` special subtypes 0/1/2 → inline i8/i16 LE/i32 LE. -/
def readStringEncoded (bs : List Nat) : Option (DecodedValue × List Nat) :=
  match readU8 bs with
  | none => none
  | some (len, r0) =>
    let kind := len / 64
    let bottomBits := len % 64
    if kind = 0 then readStringPayload bottomBits r0
    else if kind = 1 then
      match readU8 r0 with
      | none => none
      | some (b2, r1) => readStringPayload (bottomBits + 256 * b2) r1
    else if kind = 2 then
      match readU32LE r0 with
      | none => none
      | some (n, r1) => readStringPayload n r1
    else
      if bottomBits = 0 then
        match readU8 r0 with
        | none => none
        | some (v, r1) => some (.i8 (toSigned 8 v), r1)
      else if bottomBits = 1 then
        match r0 with
        | b0 :: b1 :: r1 => some (.i16 (toSigned 16 (b0 + 256 * b1)), r1)
        | _ => none
      else if bottomBits = 2 then
        match readU32LE r0 with
        | none => none
        | some (v, r1) => some (.i32 (toSigned 32 v), r1)
      else none

/-- rdb.rs `read_kv_pair` (lines 80–98): the key must decode as a
string (else `bail!`); the value may be any `DecodedValue`. -/
def readKvPair (bs : List Nat) : Option ((List Nat × DecodedValue) × List Nat) :=
  match readStringEncoded bs with
  | some (.str key, r1) =>
    match readStringEncoded r1 with
    | some (v, r2) => some ((key, v), r2)
    | none => none
  | some (_, _) => none
  | none => none

/-- rdb.rs `DecodedValue::unwrap_string` (lines 21–29). -/
def unwrapString : DecodedValue → Option (List Nat)
  | .str s => some s
  | _ => none

/-- One parsed database entry: rdb.rs lines 156–201.  `expire` is the
wall-clock expiry the reader computes from the file (before the
insertion step discards it). -/
structure RdbEntry where
  key : List Nat
  value : List Nat
  expire : Option Nat
  deriving Repr

/-- rdb.rs lines 156–201, the per-entry `match flag`: `0x00` no expiry;
`0xFD` u32 LE then a zero byte, with
`expire = UNIX_EPOCH + Duration::from_secs(ts)` i.e. `1000 * ts` ms;
`0xFC` u64 LE then a zero byte, where the source also computes
`UNIX_EPOCH + Duration::from_secs(timestamp)` — `1000 * ts` ms — even
though the timestamp is documented as milliseconds (the `// expiry in
millis` comment); any other flag is `bail!`. -/
def readEntry (bs : List Nat) : Option (RdbEntry × List Nat) :=
  match readU8 bs with
  | none => none
  | some (flag, r0) =>
    if flag = 0x00 then
      match readKvPair r0 with
      | some ((k, v), r1) =>
        match unwrapString v with
        | some s => some (⟨k, s, none⟩, r1)
        | none => none
      | none => none
    else if flag = 0xfd then
      match readU32LE r0 with
      | some (ts, r1) =>
        match readU8 r1 with
        | some (z, r2) =>
          if z = 0 then
            match readKvPair r2 with
            | some ((k, v), r3) =>
              match unwrapString v with
              | some s => some (⟨k, s, some (1000 * ts)⟩, r3)
              | none => none
            | none => none
          else none
        | none => none
      | none => none
    else if flag = 0xfc then
      match readU64LE r0 with
      | some (ts, r1) =>
        match readU8 r1 with
        | some (z, r2) =>
          if z = 0 then
            match readKvPair r2 with
            | some ((k, v), r3) =>
              match unwrapString v with
              | some s => some (⟨k, s, some (1000 * ts)⟩, r3)
              | none => none
            | none => none
          else none
        | none => none
      | none => none
    else none

/-- What rdb.rs lines 211–217 insert into the shared map: the value as
`MapValueContent::String` and `expires_at: expire.map(|_| Instant::now())`
— the entry's parsed expiry is discarded and the load-time clock stored. -/
structure RdbStored where
  key : List Nat
  value : List Nat
  expiresAt : Option Nat
  deriving Repr

def rdbInsert (m : List RdbStored) (e : RdbStored) : List RdbStored :=
  match m with
  | [] => [e]
  | x :: rest => if x.key = e.key then e :: rest else x :: rdbInsert rest e

/-- rdb.rs lines 155–218: the `for _ in 0..hash_table_size` loop.
`loadNow` is the value of `Instant::now()` during the load. -/
def readDatabaseEntries (count : Nat) (bs : List Nat) (loadNow : Nat)
    (m : List RdbStored) : Option (List RdbStored × List Nat) :=
  match count with
  | 0 => some (m, bs)
  | c + 1 =>
    match readEntry bs with
    | none => none
    | some (ent, rest) =>
      readDatabaseEntries c rest loadNow
        (rdbInsert m ⟨ent.key, ent.value, ent.expire.map (fun _ => loadNow)⟩)

/-- rdb.rs lines 115–229: the section loop — `0xFA` metadata pair
(logged, ignored), `0xFE` database section (index byte, `0xFB`, two
one-byte table sizes, then the entries), `0xFF` EOF.  `fuel` bounds the
iterations; every iteration consumes at least one byte, so the caller's
`input length + 1` always suffices. -/
def readSections (fuel : Nat) (bs : List Nat) (loadNow : Nat)
    (m : List RdbStored) : Option (List RdbStored) :=
  match fuel with
  | 0 => none
  | fuel + 1 =>
    match readU8 bs with
    | none => none
    | some (sectionTag, r0) =>
      if sectionTag = 0xfa then
        match readKvPair r0 with
        | some (_, r1) => readSections fuel r1 loadNow m
        | none => none
      else if sectionTag = 0xfe then
        match readU8 r0 with
        | some (_idx, r1) =>
          match readU8 r1 with
          | some (fb, r2) =>
            if fb = 0xfb then
              match readU8 r2 with
              | some (htSize, r3) =>
                match readU8 r3 with
                | some (_expSize, r4) =>
                  match readDatabaseEntries htSize r4 loadNow m with
                  | some (m2, r5) => readSections fuel r5 loadNow m2
                  | none => none
                | none => none
              | none => none
            else none
          | none => none
        | none => none
      else if sectionTag = 0xff then some m
      else none

/-- src/rdb.rs `read` (lines 100–232): the 9-byte magic `REDIS0011`,
then the section loop, starting from an empty set of ingested entries. -/
def rdbRead (bs : List Nat) (loadNow : Nat) : Option (List RdbStored) :=
  match readExact 9 bs with
  | none => none
  | some (magic, rest) =>
    if magic = [82, 69, 68, 73, 83, 48, 48, 49, 49] then
      readSections (rest.length + 1) rest loadNow []
    else none

/-- A snapshot with exactly one entry, flag `0xFC`, u64 LE timestamp 5
(milliseconds per the claim and the spec), key "a", value "b". -/
def rdbC5File : List Nat :=
  [82, 69, 68, 73, 83, 48, 48, 49, 49,
   0xfe, 0x00, 0xfb, 0x01, 0x00,
   0xfc, 5, 0, 0, 0, 0, 0, 0, 0,
   0x00,
   0x01, 97,
   0x01, 98,
   0xff]

/-- C5: the reader does NOT store the file's timestamp.  For every load
time, loading a snapshot whose single 0xFC entry carries timestamp 5
stores `expires_at = loadNow` — the load-time clock, discarding the
parsed expiry entirely (`expire.map(|_| Instant::now())`); and the
expiry the reader parses before discarding it is `1000 * 5` ms —
`Duration::from_secs` applied to a milliseconds field — not the 5 ms
the claim requires. -/
theorem rdb_expiry_ignores_file_timestamp :
    (∀ loadNow : Nat,
      rdbRead rdbC5File loadNow = some [⟨[97], [98], some loadNow⟩]) ∧
    readEntry [0xfc, 5, 0, 0, 0, 0, 0, 0, 0, 0x00, 0x01, 97, 0x01, 98] =
      some (⟨[97], [98], some (1000 * 5)⟩, []) :=
  ⟨fun _ => rfl, rfl⟩

/-! ### C4 — src/resp.rs: the frame codec.  `Value` (lines 186–205) at
byte level: string payloads are UTF-8 byte lists (`Rust String`), so
`s.len()` is the byte length.  The `f64` payload of `Double` is
abstracted as its raw bit pattern; no embedded code path inspects it
(both its encoder and decoder arms are `todo!()`). -/
inductive Frame where
  | simpleString (s : List Nat)
  | simpleError (s : List Nat)
  | integer (n : Int)
  | bulkString (s : List Nat)
  | rdb (s : List Nat)
  | null
  | array (items : List Frame)
  | boolean (b : Bool)
  | double (bits : Nat)
  | bigNumber (n : Int)
  | bulkError (s : List Nat)
  | verbatimString (encoding : List Nat) (data : List Nat)
  | map (pairs : List (Frame × Frame))
  | attr (pairs : List (Frame × Frame))
  | set (items : List Frame)
  | push (items : List Frame)

/-- ASCII decimal digits of `n`, most significant first — Rust
`format!("{n}")` for an unsigned integer.  Fuel-structured so it
evaluates in the kernel; `n + 1` fuel always suffices. -/
def natDecimalAux : Nat → Nat → List Nat
  | 0, _ => []
  | fuel + 1, n =>
    if n < 10 then [n + 48] else natDecimalAux fuel (n / 10) ++ [n % 10 + 48]

def natDecimal (n : Nat) : List Nat := natDecimalAux (n + 1) n

/-- Rust `format!("{n}")` for an `i64`. -/
def intDecimal (n : Int) : List Nat :=
  if n < 0 then 45 :: natDecimal (-n).toNat else natDecimal n.toNat

/-! src/resp.rs `Value::write_to` (lines 224–277), as the byte sequence
written, `none` when the write fails — the eight `todo!()` arms
(Boolean, Double, BigNumber, BulkError, VerbatimString, Map, Attribute,
Set, Push) panic instead of writing. -/
mutual

/-- src/resp.rs `Value::write_to`: the bytes written for one frame. -/
def writeTo : Frame → Option (List Nat)
  | .simpleString s => some (43 :: (s ++ [13, 10]))
  | .simpleError e => some (45 :: (e ++ [13, 10]))
  | .integer n => some (58 :: (intDecimal n ++ [13, 10]))
  | .bulkString s => some (36 :: (natDecimal s.length ++ [13, 10] ++ s ++ [13, 10]))
  | .rdb s => some (36 :: (natDecimal s.length ++ [13, 10] ++ s))
  | .null => some [36, 45, 49, 13, 10]
  | .array items =>
    match writeList items with
    | some body => some (42 :: (natDecimal items.length ++ [13, 10] ++ body))
    | none => none
  | .boolean _ => none
  | .double _ => none
  | .bigNumber _ => none
  | .bulkError _ => none
  | .verbatimString _ _ => none
  | .map _ => none
  | .attr _ => none
  | .set _ => none
  | .push _ => none

/-- The `for (i, v) in a.iter().enumerate()` loop of the Array arm. -/
def writeList : List Frame → Option (List Nat)
  | [] => some []
  | v :: rest =>
    match writeTo v with
    | some bs =>
      match writeList rest with
      | some bs2 => some (bs ++ bs2)
      | none => none
    | none => none
end

/-- The decoder's output type, `serde_json::Value` restricted to what
src/resp.rs `parse` can produce: JSON strings and arrays. -/
inductive JValue where
  | str (s : List Nat)
  | arr (items : List JValue)

/-- resp.rs `take_until_delim` (lines 58–71): `read_until(b'\r')`
through the first CR, then `read_u8` must give LF (else `bail!`); the
CR is popped from the buffer; returns (content, bytes consumed, rest).
EOF before CR or LF is an I/O error. -/
def takeUntilDelim : List Nat → Option (List Nat × Nat × List Nat)
  | [] => none
  | b :: rest =>
    if b = 13 then
      match rest with
      | 10 :: r => some ([], 2, r)
      | _ => none
    else
      match takeUntilDelim rest with
      | some (c, n, r) => some (b :: c, n + 1, r)
      | none => none

/-- resp.rs `take_delim` (lines 75–84): `read_exact` two bytes that
must be CRLF (`ensure!`). -/
def takeDelim : List Nat → Option (List Nat)
  | 13 :: 10 :: r => some r
  | _ => none

/-- The optional leading `+` accepted by Rust's unsigned `parse`. -/
def stripPlus : List Nat → List Nat
  | [] => []
  | b :: r => if b = 43 then r else b :: r

/-- `String::from_utf8(buf)?.parse::<usize>()?` on a byte buffer:
optional leading `+`, one or more ASCII digits, value below 2^64
(`usize` range).  A buffer that is not valid UTF-8 contains a non-digit
byte, so the composite fails on it either way. -/
def parseUsizeBytes (s : List Nat) : Option Nat :=
  let ds := stripPlus s
  if ds ≠ [] ∧ ds.all (fun b => 48 ≤ b ∧ b ≤ 57) then
    let v := ds.foldl (fun a b => a * 10 + (b - 48)) 0
    if v < 2 ^ 64 then some v else none
  else none

/-! src/resp.rs `parse` (lines 114–184): decode one frame, returning
the decoded `serde_json::Value`, the exact byte count consumed, and the
remaining stream.  Implemented arms: SimpleString (`+`), BulkString
(`$`), Array (`*`, recursive); the other eleven recognized tags reach
`todo!()` arms (panic), and an unrecognized tag fails
`DataKind::try_from` — both are `none`.  `fuel` bounds the recursion
depth over nested arrays. -/

/-- The `for i in 0..len` loop of the Array arm: `len` parses with the
given one-value parser, summing the byte counts. -/
def parseItemsWith (pv : List Nat → Option (JValue × Nat × List Nat)) :
    Nat → List Nat → Option (List JValue × Nat × List Nat)
  | 0, input => some ([], 0, input)
  | n + 1, input =>
    match pv input with
    | some (v, b1, r1) =>
      match parseItemsWith pv n r1 with
      | some (vs, b2, r2) => some (v :: vs, b1 + b2, r2)
      | none => none
    | none => none

/-- src/resp.rs `parse`: decode one frame from the stream. -/
def parseValue : Nat → List Nat → Option (JValue × Nat × List Nat)
  | 0, _ => none
  | fuel + 1, input =>
    match readU8 input with
    | none => none
    | some (kindByte, r0) =>
      if kindByte = 43 then
        match takeUntilDelim r0 with
        | some (buf, n, r) =>
          if validUtf8 buf then some (.str buf, 1 + n, r) else none
        | none => none
      else if kindByte = 36 then
        match takeUntilDelim r0 with
        | some (lenBuf, n1, r1) =>
          match parseUsizeBytes lenBuf with
          | some len =>
            match readExact len r1 with
            | some (data, r2) =>
              match takeDelim r2 with
              | some r3 =>
                if validUtf8 data then some (.str data, 1 + n1 + len + 2, r3)
                else none
              | none => none
            | none => none
          | none => none
        | none => none
      else if kindByte = 42 then
        match takeUntilDelim r0 with
        | some (lenBuf, n1, r1) =>
          match parseUsizeBytes lenBuf with
          | some len =>
            match parseItemsWith (parseValue fuel) len r1 with
            | some (vals, n2, r2) => some (.arr vals, 1 + n1 + n2, r2)
            | none => none
          | none => none
        | none => none
      else none

/-! The `serde_json::Value` an implemented frame decodes to. -/
mutual

/-- `toJ`: the JSON value of an implemented frame. -/
def toJ : Frame → JValue
  | .simpleString s => .str s
  | .bulkString s => .str s
  | .array items => .arr (toJList items)
  | _ => .str []
def toJList : List Frame → List JValue
  | [] => []
  | v :: rest => toJ v :: toJList rest
end

/-! A frame value both codec directions implement, with the invariants
Rust enforces on it: string payloads are valid UTF-8 (`String`), a
simple string carries no CR (it could not be re-read), and lengths fit
`usize`. -/
mutual

/-- Validity of one frame (see the section comment above). -/
def validFrame : Frame → Bool
  | .simpleString s => validUtf8 s && decide (¬ 13 ∈ s) && decide (s.length < 2 ^ 64)
  | .bulkString s => validUtf8 s && decide (s.length < 2 ^ 64)
  | .array items => validFrameList items && decide (items.length < 2 ^ 64)
  | _ => false
def validFrameList : List Frame → Bool
  | [] => true
  | v :: rest => validFrame v && validFrameList rest
end

/-! Array-nesting depth of a frame, the fuel the decoder needs. -/
mutual

/-- Array-nesting depth of a frame. -/
def depth : Frame → Nat
  | .array items => depthList items + 1
  | _ => 1
def depthList : List Frame → Nat
  | [] => 0
  | v :: rest => max (depth v) (depthList rest)
end

theorem natDecimalAux_bounds :
    ∀ (fuel n : Nat), ∀ c ∈ natDecimalAux fuel n, 48 ≤ c ∧ c ≤ 57 := by
  intro fuel
  induction fuel with
  | zero => intro n c hc; simp [natDecimalAux] at hc
  | succ f ih =>
    intro n c hc
    by_cases h : n < 10
    · simp only [natDecimalAux, if_pos h, List.mem_singleton] at hc
      omega
    · simp only [natDecimalAux, if_neg h, List.mem_append, List.mem_singleton] at hc
      rcases hc with hc | hc
      · exact ih _ c hc
      · omega

theorem natDecimalAux_foldl :
    ∀ (fuel n : Nat), n < 10 ^ fuel →
      (natDecimalAux fuel n).foldl (fun a b => a * 10 + (b - 48)) 0 = n := by
  intro fuel
  induction fuel with
  | zero =>
    intro n h
    have hn : n = 0 := by simpa using h
    subst hn
    rfl
  | succ f ih =>
    intro n h
    by_cases hlt : n < 10
    · simp only [natDecimalAux, if_pos hlt, List.foldl_cons, List.foldl_nil]
      omega
    · have hdiv : n / 10 < 10 ^ f := by
        rw [pow_succ] at h
        omega
      simp only [natDecimalAux, if_neg hlt, List.foldl_append, ih (n / 10) hdiv,
        List.foldl_cons, List.foldl_nil]
      omega

theorem natDecimalAux_ne_nil (f n : Nat) : natDecimalAux (f + 1) n ≠ [] := by
  by_cases h : n < 10 <;> simp [natDecimalAux, h]

theorem natDecimal_bounds (n : Nat) : ∀ c ∈ natDecimal n, 48 ≤ c ∧ c ≤ 57 :=
  natDecimalAux_bounds (n + 1) n

theorem natDecimal_foldl (n : Nat) :
    (natDecimal n).foldl (fun a b => a * 10 + (b - 48)) 0 = n :=
  natDecimalAux_foldl (n + 1) n
    (lt_of_lt_of_le (Nat.lt_pow_self (by norm_num) n)
      (Nat.pow_le_pow_right (by norm_num) (Nat.le_succ n)))

theorem natDecimal_no_cr (n : Nat) : 13 ∉ natDecimal n := by
  intro hmem
  have := natDecimal_bounds n 13 hmem
  omega

theorem stripPlus_digits (s : List Nat) (h : ∀ c ∈ s, 48 ≤ c) : stripPlus s = s := by
  cases s with
  | nil => rfl
  | cons b r =>
    have hb := h b (List.mem_cons_self b r)
    exact if_neg (by omega)

theorem parseUsizeBytes_natDecimal (n : Nat) (h : n < 2 ^ 64) :
    parseUsizeBytes (natDecimal n) = some n := by
  have hb := natDecimal_bounds n
  have hall : (natDecimal n).all (fun b => decide (48 ≤ b ∧ b ≤ 57)) = true := by
    rw [List.all_eq_true]
    intro c hc
    exact decide_eq_true (hb c hc)
  simp only [parseUsizeBytes, stripPlus_digits _ (fun c hc => (hb c hc).1)]
  rw [if_pos ⟨natDecimalAux_ne_nil n n, hall⟩, natDecimal_foldl, if_pos h]

theorem takeUntilDelim_append (s rest : List Nat) (h : 13 ∉ s) :
    takeUntilDelim (s ++ 13 :: 10 :: rest) = some (s, s.length + 2, rest) := by
  induction s with
  | nil => simp [takeUntilDelim]
  | cons b r ih =>
    have hb : ¬ b = 13 := fun hb => h (hb ▸ List.mem_cons_self b r)
    have hr : 13 ∉ r := fun hr => h (List.mem_cons_of_mem b hr)
    simp only [List.cons_append, takeUntilDelim, if_neg hb, List.append_eq]
    rw [ih hr]
    simp [List.length_cons]

theorem readExact_append (xs ys : List Nat) :
    readExact xs.length (xs ++ ys) = some (xs, ys) := by
  unfold readExact
  rw [if_pos (by simp)]
  rw [List.take_left, List.drop_left]

theorem one_le_depth (v : Frame) : 1 ≤ depth v := by
  cases v <;> simp [depth]

/-- The round-trip engine: an implemented, valid frame written to bytes
parses back — from any continuation `rest` — to its JSON value and the
exact number of bytes of its encoding. -/
theorem parse_roundtrip_aux :
    ∀ (fuel : Nat) (v : Frame) (bs rest : List Nat),
      validFrame v = true → writeTo v = some bs → depth v ≤ fuel →
      parseValue fuel (bs ++ rest) = some (toJ v, bs.length, rest) := by
  intro fuel
  induction fuel with
  | zero =>
    intro v bs rest _ _ hf
    have := one_le_depth v
    omega
  | succ f ih =>
    intro v bs rest hv hw hf
    cases v with
    | simpleString s =>
      simp only [writeTo, Option.some.injEq] at hw
      subst hw
      simp only [validFrame, Bool.and_eq_true, decide_eq_true_eq] at hv
      obtain ⟨⟨h8, h13⟩, _⟩ := hv
      have heq : (43 :: (s ++ [13, 10])) ++ rest = 43 :: (s ++ 13 :: 10 :: rest) := by
        simp
      rw [heq]
      simp only [parseValue, readU8, takeUntilDelim_append s rest h13, h8,
        if_true, reduceIte, toJ, Option.some.injEq, Prod.mk.injEq,
        List.length_cons, List.length_append]
      refine ⟨trivial, ?_, trivial⟩
      simp only [List.length_nil]
      omega
    | bulkString s =>
      simp only [writeTo, Option.some.injEq] at hw
      subst hw
      simp only [validFrame, Bool.and_eq_true, decide_eq_true_eq] at hv
      obtain ⟨h8, hlen⟩ := hv
      have heq : (36 :: (natDecimal s.length ++ [13, 10] ++ s ++ [13, 10])) ++ rest =
          36 :: (natDecimal s.length ++ 13 :: 10 :: (s ++ 13 :: 10 :: rest)) := by
        simp
      rw [heq]
      simp only [parseValue, readU8, reduceIte,
        takeUntilDelim_append _ _ (natDecimal_no_cr s.length),
        parseUsizeBytes_natDecimal s.length hlen,
        readExact_append s (13 :: 10 :: rest), takeDelim, h8, if_true, toJ,
        Option.some.injEq, Prod.mk.injEq, List.length_cons, List.length_append]
      rw [if_neg (by decide)]
      simp only [Option.some.injEq, Prod.mk.injEq, List.length_nil]
      refine ⟨trivial, by omega, trivial⟩
    | array items =>
      rcases hwl : writeList items with _ | body
      · rw [writeTo, hwl] at hw
        cases hw
      · rw [writeTo, hwl] at hw
        simp only [Option.some.injEq] at hw
        subst hw
        simp only [validFrame, Bool.and_eq_true, decide_eq_true_eq] at hv
        obtain ⟨hvl, hnlen⟩ := hv
        have hd : depthList items ≤ f := by
          simp only [depth] at hf
          omega
        have inner : ∀ (l : List Frame) (body2 r2 : List Nat),
            validFrameList l = true → writeList l = some body2 →
            depthList l ≤ f →
            parseItemsWith (parseValue f) l.length (body2 ++ r2) =
              some (toJList l, body2.length, r2) := by
          intro l
          induction l with
          | nil =>
            intro body2 r2 _ hwl2 _
            simp only [writeList, Option.some.injEq] at hwl2
            subst hwl2
            simp [parseItemsWith, toJList]
          | cons w ws ihl =>
            intro body2 r2 hvl2 hwl2 hd2
            rcases h1 : writeTo w with _ | b1 <;> rw [writeList, h1] at hwl2
            · cases hwl2
            · rcases h2 : writeList ws with _ | b2 <;> rw [h2] at hwl2
              · cases hwl2
              · simp only [Option.some.injEq] at hwl2
                subst hwl2
                simp only [validFrameList, Bool.and_eq_true] at hvl2
                have hdw : depth w ≤ f := by
                  simp only [depthList] at hd2
                  omega
                have hdws : depthList ws ≤ f := by
                  simp only [depthList] at hd2
                  omega
                have hb1 : (b1 ++ b2) ++ r2 = b1 ++ (b2 ++ r2) := by simp
                rw [List.length_cons, hb1]
                simp only [parseItemsWith, ih w b1 (b2 ++ r2) hvl2.1 h1 hdw,
                  ihl b2 r2 hvl2.2 h2 hdws, toJList, Option.some.injEq,
                  Prod.mk.injEq, List.length_append]
        have heq : (42 :: (natDecimal items.length ++ [13, 10] ++ body)) ++ rest =
            42 :: (natDecimal items.length ++ 13 :: 10 :: (body ++ rest)) := by
          simp
        rw [heq]
        simp only [parseValue, readU8, reduceIte,
          takeUntilDelim_append _ _ (natDecimal_no_cr items.length),
          parseUsizeBytes_natDecimal items.length hnlen,
          inner items body rest hvl hwl hd, toJ, Option.some.injEq,
          Prod.mk.injEq, List.length_cons, List.length_append]
        rw [if_neg (by decide), if_neg (by decide)]
        simp only [Option.some.injEq, Prod.mk.injEq, List.length_nil]
        refine ⟨trivial, by omega, trivial⟩
    | simpleError s => simp [validFrame] at hv
    | integer n => simp [validFrame] at hv
    | rdb s => simp [validFrame] at hv
    | null => simp [validFrame] at hv
    | boolean b => simp [validFrame] at hv
    | double bits => simp [validFrame] at hv
    | bigNumber n => simp [validFrame] at hv
    | bulkError s => simp [validFrame] at hv
    | verbatimString e d => simp [validFrame] at hv
    | map p => simp [validFrame] at hv
    | attr p => simp [validFrame] at hv
    | set l => simp [validFrame] at hv
    | push l => simp [validFrame] at hv

/-- C4 (amended): decode∘encode is the identity (with the byte count
equal to the exact encoding length) exactly for the frame kinds both
codec directions implement — simple string, bulk string, and array —
on valid frames.  Of the other §4.1 kinds: integer, simple error and
null encode but their decoder arms are `todo!()` panics or fail, and
boolean, double, big integer, bulk error, verbatim string, map,
attribute, set and push do not even encode (`todo!()`). -/
theorem codec_roundtrip :
    (∀ (fuel : Nat) (v : Frame) (bs : List Nat),
      validFrame v = true → writeTo v = some bs → depth v ≤ fuel →
      parseValue fuel bs = some (toJ v, bs.length, [])) ∧
    (∀ (n : Int) (bs : List Nat) (fuel : Nat),
      writeTo (.integer n) = some bs → parseValue fuel bs = none) ∧
    (∀ (s bs : List Nat) (fuel : Nat),
      writeTo (.simpleError s) = some bs → parseValue fuel bs = none) ∧
    (∀ (bs : List Nat) (fuel : Nat),
      writeTo .null = some bs → parseValue fuel bs = none) ∧
    ((∀ b, writeTo (.boolean b) = none) ∧
     (∀ bits, writeTo (.double bits) = none) ∧
     (∀ n, writeTo (.bigNumber n) = none) ∧
     (∀ s, writeTo (.bulkError s) = none) ∧
     (∀ e d, writeTo (.verbatimString e d) = none) ∧
     (∀ p, writeTo (.map p) = none) ∧
     (∀ p, writeTo (.attr p) = none) ∧
     (∀ l, writeTo (.set l) = none) ∧
     (∀ l, writeTo (.push l) = none)) := by
  refine ⟨?_, ?_, ?_, ?_,
    fun _ => rfl, fun _ => rfl, fun _ => rfl, fun _ => rfl, fun _ _ => rfl,
    fun _ => rfl, fun _ => rfl, fun _ => rfl, fun _ => rfl⟩
  · intro fuel v bs hv hw hf
    have h := parse_roundtrip_aux fuel v bs [] hv hw hf
    rwa [List.append_nil] at h
  · intro n bs fuel hw
    simp only [writeTo, Option.some.injEq] at hw
    subst hw
    cases fuel with
    | zero => rfl
    | succ f => rfl
  · intro s bs fuel hw
    simp only [writeTo, Option.some.injEq] at hw
    subst hw
    cases fuel with
    | zero => rfl
    | succ f => rfl
  · intro bs fuel hw
    simp only [writeTo, Option.some.injEq] at hw
    subst hw
    cases fuel with
    | zero => rfl
    | succ f => rfl

/-- C4 witness: the array frame [*2, +hi, $2 CRLF] — an array of a
simple string and a bulk string whose payload is itself CRLF — encodes
to 17 bytes and decodes back to its value with byte count 17. -/
theorem codec_roundtrip_witness :
    validFrame (Frame.array [.simpleString [104, 105], .bulkString [13, 10]]) = true ∧
    writeTo (Frame.array [.simpleString [104, 105], .bulkString [13, 10]]) =
      some [42, 50, 13, 10, 43, 104, 105, 13, 10, 36, 50, 13, 10, 13, 10, 13, 10] ∧
    parseValue 2 [42, 50, 13, 10, 43, 104, 105, 13, 10, 36, 50, 13, 10, 13, 10, 13, 10] =
      some (.arr [.str [104, 105], .str [13, 10]], 17, []) :=
  ⟨rfl, rfl,
    codec_roundtrip.1 2 (Frame.array [.simpleString [104, 105], .bulkString [13, 10]])
      [42, 50, 13, 10, 43, 104, 105, 13, 10, 36, 50, 13, 10, 13, 10, 13, 10]
      rfl rfl (by decide)⟩

/-- C4 counterexample: the integer frame 5 encodes to `:5 CRLF`, but
decoding that encoding fails — the decoder's Integer arm is `todo!()` —
so decode∘encode is not the identity for the integer kind; and a
boolean frame does not even encode. -/
theorem codec_integer_counterexample :
    writeTo (.integer 5) = some [58, 53, 13, 10] ∧
    parseValue 9 [58, 53, 13, 10] = none ∧
    writeTo (.boolean true) = none :=
  ⟨rfl, rfl, rfl⟩

end S2P
